import Mathlib

/-!
Verification of the workspace notebooks client (client/service/notebooks.go).

The client issues synchronous HTTP calls through a shared client
(`performQuery`) and decodes JSON responses (`json.Unmarshal`).  Both live
outside the source this file covers, so they are abstracted as oracles: a call
either fails with an opaque error value of type `E` (covering a non-success
HTTP status or a malformed body) or yields an opaque response body of type
`B`, which a decoder oracle turns into the typed result or a decode error.

For the recursive `List` walk the remote is abstracted as the tree of
responses the `/workspace/list` endpoint would give along the walk: each
directory node carries either the error its list call produces or the list
of entries it returns, each entry carrying the object status the remote
reports together with the response tree below it (consulted only when the
status marks the entry as a directory, exactly as the code only calls
`list` on directory entries).
-/

namespace model

/-- Modelled from the spec: the language tag of a notebook, a plain string
in the remote API (the `model` package is not part of this source excerpt). -/
abbrev Language := String

/-- Modelled from the spec: the export format tag, a plain string in the
remote API. -/
abbrev ExportFormat := String

/-- Modelled from the spec: the object-type tag of a workspace object, a
plain string in the remote API. -/
abbrev ObjectType := String

/-- Modelled from the spec: the tag the remote uses for notebook objects. -/
def Notebook : ObjectType := "NOTEBOOK"

/-- Modelled from the spec: the tag the remote uses for directory objects. -/
def Directory : ObjectType := "DIRECTORY"

/-- Modelled from the spec: the object descriptor returned by the status and
list endpoints — path, type (notebook or directory, or any other tag the
remote may report) and language. -/
structure WorkspaceObjectStatus where
  path : String
  objectType : ObjectType
  language : Language
deriving DecidableEq, Repr

/-- The zero value of `WorkspaceObjectStatus`, what a Go caller receives
when the call fails before decoding. -/
def zeroStatus : WorkspaceObjectStatus :=
  { path := "", objectType := "", language := "" }

/-- Modelled from the spec: the import request envelope, with the fields
`Create` assigns (content, language, path, format, overwrite). -/
structure NotebookImportRequest where
  content : String
  language : Language
  path : String
  format : ExportFormat
  overwrite : Bool
deriving DecidableEq, Repr

/-- Modelled from the spec: the delete request envelope, with the fields
`Delete` assigns (path, recursive). -/
structure NotebookDeleteRequest where
  path : String
  recursive : Bool
deriving DecidableEq, Repr

/-- Modelled from the spec: the content blob returned by the export
endpoint. -/
structure NotebookContent where
  content : String
deriving DecidableEq, Repr

/-- The request envelope holding a single path, mirroring the anonymous
`struct { Path string }` used by `Read`, `Mkdirs` and `list`. -/
structure WorkspacePathRequest where
  path : String
deriving DecidableEq, Repr

/-- The request envelope of `Export`, mirroring the anonymous
`struct { Path; Format }`. -/
structure WorkspaceExportRequest where
  path : String
  format : ExportFormat
deriving DecidableEq, Repr

end model

mutual
/-- The remote side of the recursive walk: what the `/workspace/list`
endpoint answers for one directory — an error (HTTP or JSON decode), or its
entries. -/
inductive RemoteDir (E : Type) where
  | err (e : E)
  | ok (entries : Entries E)
/-- The entries one list call returns, in the order the remote returns
them; each carries the reported status and the response tree below it. -/
inductive Entries (E : Type) where
  | nil
  | cons (st : model.WorkspaceObjectStatus) (contents : RemoteDir E) (rest : Entries E)
end

/-- The statuses a list response carries, in order (the `objects` field of
the decoded response). -/
def Entries.statuses {E : Type} : Entries E → List model.WorkspaceObjectStatus
  | .nil => []
  | .cons st _ rest => st :: Entries.statuses rest

/-- The type of the objects slice the list operations return. -/
abbrev StatusList := List model.WorkspaceObjectStatus

/-- A trace of list calls: the path argument of each call, in call order. -/
abbrev CallTrace := List String

/-- A trace of submitted import requests. -/
abbrev ImportRequestTrace := List model.NotebookImportRequest

/-- A trace of submitted delete requests. -/
abbrev DeleteRequestTrace := List model.NotebookDeleteRequest

/-- Embedding of `list` (one level): on a remote error it returns the zero
value of the objects slice (`none`, Go `nil`) together with the error,
otherwise the decoded objects.  Go does not distinguish a nil from an empty
slice on the success path; `none` here models only the slice returned on
the error path. -/
def NotebooksAPI.listOne {E : Type} : RemoteDir E → Option StatusList × Option E
  | .err e => (none, some e)
  | .ok es => (some (Entries.statuses es), none)

mutual
/-- Embedding of `recursiveAddPaths`: list the directory, abort on error;
otherwise fold over the entries, appending notebooks to the accumulated
path list and recursing into directories, aborting on the first error.
The Go pointer accumulator `pathList` is threaded as `acc`; the returned
`Except` combines the final accumulator with the returned error. -/
def NotebooksAPI.recursiveAddPaths {E : Type} :
    RemoteDir E → StatusList → Except E StatusList
  | .err e, _ => .error e
  | .ok es, acc => addEntries es acc
/-- The `for _, v := range notebookInfoList` loop body of
`recursiveAddPaths`. -/
def NotebooksAPI.addEntries {E : Type} :
    Entries E → StatusList → Except E StatusList
  | .nil, acc => .ok acc
  | .cons st contents rest, acc =>
    if st.objectType = model.Notebook then addEntries rest (acc ++ [st])
    else if st.objectType = model.Directory then
      match recursiveAddPaths contents acc with
      | .error e => .error e
      | .ok acc2 => addEntries rest acc2
    else addEntries rest acc
end

/-- Embedding of `List`: in recursive mode run `recursiveAddPaths` from an
empty accumulator, returning `nil` and the error if it failed, otherwise
the collected paths; in non-recursive mode a single `list` call. -/
def NotebooksAPI.List {E : Type} (d : RemoteDir E) (recursive : Bool) :
    Option StatusList × Option E :=
  if recursive then
    match recursiveAddPaths d [] with
    | .error e => (none, some e)
    | .ok paths => (some paths, none)
  else listOne d

mutual
/-- Embedding of `recursiveAddPaths` instrumented with the trace of list calls it
issues: the path argument of each `a.list(path)` call, in call order.  The
second component coincides with `recursiveAddPaths` (proved below). -/
def NotebooksAPI.recursiveAddPathsT {E : Type} :
    String → RemoteDir E → StatusList → CallTrace × Except E StatusList
  | p, .err e, _ => ([p], .error e)
  | p, .ok es, acc =>
    match addEntriesT es acc with
    | (t, r) => (p :: t, r)
/-- The loop of `recursiveAddPathsT`, tracing the calls of the recursive
descents. -/
def NotebooksAPI.addEntriesT {E : Type} :
    Entries E → StatusList → CallTrace × Except E StatusList
  | .nil, acc => ([], .ok acc)
  | .cons st contents rest, acc =>
    if st.objectType = model.Notebook then addEntriesT rest (acc ++ [st])
    else if st.objectType = model.Directory then
      match recursiveAddPathsT st.path contents acc with
      | (t, .error e) => (t, .error e)
      | (t, .ok acc2) =>
        match addEntriesT rest acc2 with
        | (t2, r2) => (t ++ t2, r2)
    else addEntriesT rest acc
end

/-- Embedding of `List` instrumented with the trace of list calls: `p` is the path
`List` is called on (the root of the response tree `d`). -/
def NotebooksAPI.ListT {E : Type} (p : String) (d : RemoteDir E) (recursive : Bool) :
    CallTrace × (Option StatusList × Option E) :=
  if recursive then
    match recursiveAddPathsT p d [] with
    | (t, .error e) => (t, (none, some e))
    | (t, .ok paths) => (t, (some paths, none))
  else ([p], listOne d)


mutual
/-- Spec-side: the notebook entries of a response tree, in depth-first
order ("collecting only notebook entries, recursing into directory
entries"). -/
def specNotebooks {E : Type} : RemoteDir E → StatusList
  | .err _ => []
  | .ok es => specNotebooksE es
/-- Spec-side: the notebook entries below a list of entries, depth-first. -/
def specNotebooksE {E : Type} : Entries E → StatusList
  | .nil => []
  | .cons st c rest =>
    if st.objectType = model.Notebook then st :: specNotebooksE rest
    else if st.objectType = model.Directory then specNotebooks c ++ specNotebooksE rest
    else specNotebooksE rest
end

mutual
/-- Spec-side: the tree answers every list call and contains only notebook
objects besides directories. -/
def onlyNotebooksDir {E : Type} : RemoteDir E → Bool
  | .err _ => false
  | .ok es => onlyNotebooksEntries es
/-- Spec-side: every entry is a notebook, or a directory whose subtree
again contains only notebooks. -/
def onlyNotebooksEntries {E : Type} : Entries E → Bool
  | .nil => true
  | .cons st c rest =>
    (st.objectType == model.Notebook
        || (st.objectType == model.Directory && onlyNotebooksDir c))
      && onlyNotebooksEntries rest
end

mutual
/-- Spec-side: the first error a depth-first walk of the tree meets, if
any — the error the spec says the traversal aborts with.  Only directory
entries are descended into, as the walk only lists directories. -/
def firstListError {E : Type} : RemoteDir E → Option E
  | .err e => some e
  | .ok es => firstListErrorE es
/-- Spec-side: the first error below a list of entries, depth-first. -/
def firstListErrorE {E : Type} : Entries E → Option E
  | .nil => none
  | .cons st c rest =>
    if st.objectType = model.Directory then
      match firstListError c with
      | some e => some e
      | none => firstListErrorE rest
    else firstListErrorE rest
end

mutual
/-- Spec-side: one list call per directory of the tree, depth-first, in the
order the remote returns the entries — the calls the spec says a recursive
`List` issues when no call fails. -/
def specDirCalls {E : Type} : String → RemoteDir E → List String
  | p, .err _ => [p]
  | p, .ok es => p :: specDirCallsE es
/-- Spec-side: the directory calls below a list of entries, depth-first. -/
def specDirCallsE {E : Type} : Entries E → List String
  | .nil => []
  | .cons st c rest =>
    if st.objectType = model.Directory then specDirCalls st.path c ++ specDirCallsE rest
    else specDirCallsE rest
end

mutual
/-- Spec-side: the list calls the traversal issues, cut off at the first
error: once a descent fails, no call is issued for the remaining entries at
any enclosing level. -/
def specCalls {E : Type} : String → RemoteDir E → List String
  | p, .err _ => [p]
  | p, .ok es => p :: specCallsE es
/-- Spec-side: the calls below a list of entries, cut off at the first
error. -/
def specCallsE {E : Type} : Entries E → List String
  | .nil => []
  | .cons st c rest =>
    if st.objectType = model.Directory then
      specCalls st.path c ++
        (match firstListError c with
          | some _ => []
          | none => specCallsE rest)
    else specCallsE rest
end

/-- The import request `Create` builds: field-by-field assignments as in
the source (`Content`, `Language`, `Path`, `Format`, `Overwrite`). -/
def NotebooksAPI.createRequest (path content : String) (language : model.Language)
    (format : model.ExportFormat) (overwrite : Bool) : model.NotebookImportRequest :=
  { content := content, language := language, path := path,
    format := format, overwrite := overwrite }

/-- Embedding of `Create`: one POST of the import request through the
shared client; the error of the call, if any, is returned as is (the response
body is discarded). -/
def NotebooksAPI.Create {E B : Type} (performQuery : model.NotebookImportRequest → Except E B)
    (path content : String) (language : model.Language) (format : model.ExportFormat)
    (overwrite : Bool) : Option E :=
  match performQuery (createRequest path content language format overwrite) with
  | .error e => some e
  | .ok _ => none

/-- The requests `Create` submits: exactly one, the import request built
from its arguments (the body of `Create` performs a single query). -/
def NotebooksAPI.CreateCalls (path content : String) (language : model.Language)
    (format : model.ExportFormat) (overwrite : Bool) : ImportRequestTrace :=
  [createRequest path content language format overwrite]

/-- Embedding of `Read`: one GET of the status request; on a call error the
zero-valued status and that error are returned, otherwise the result of the
decoder and its error. -/
def NotebooksAPI.Read {E B : Type} (performQuery : model.WorkspacePathRequest → Except E B)
    (unmarshalStatus : B → model.WorkspaceObjectStatus × Option E)
    (path : String) : model.WorkspaceObjectStatus × Option E :=
  match performQuery { path := path } with
  | .error e => (model.zeroStatus, some e)
  | .ok resp => unmarshalStatus resp

/-- Embedding of `Export`: one GET of the export request; on a call error
the zero-valued content (empty string) and that error are returned,
otherwise the decoded content and the error of the decoder. -/
def NotebooksAPI.Export {E B : Type} (performQuery : model.WorkspaceExportRequest → Except E B)
    (unmarshalContent : B → model.NotebookContent × Option E)
    (path : String) (format : model.ExportFormat) : String × Option E :=
  match performQuery { path := path, format := format } with
  | .error e => ("", some e)
  | .ok resp =>
    let r := unmarshalContent resp
    (r.1.content, r.2)

/-- Embedding of `Mkdirs`: one POST of the path request, returning the
error of the call as is.  The source takes the process-wide `mkdirMtx` around
the call; locking is a concurrency effect with no content in this
sequential embedding, so it is elided here. -/
def NotebooksAPI.Mkdirs {E B : Type} (performQuery : model.WorkspacePathRequest → Except E B)
    (path : String) : Option E :=
  match performQuery { path := path } with
  | .error e => some e
  | .ok _ => none

/-- The delete request `Delete` builds: path and recursive flag assigned
from its arguments. -/
def NotebooksAPI.deleteRequest (path : String) (recursive : Bool) : model.NotebookDeleteRequest :=
  { path := path, recursive := recursive }

/-- Embedding of `Delete`: one POST of the delete request, returning the
error of the call as is. -/
def NotebooksAPI.Delete {E B : Type} (performQuery : model.NotebookDeleteRequest → Except E B)
    (path : String) (recursive : Bool) : Option E :=
  match performQuery (deleteRequest path recursive) with
  | .error e => some e
  | .ok _ => none

/-- The requests `Delete` submits: exactly one, the delete request built
from its arguments (the body of `Delete` performs a single query). -/
def NotebooksAPI.DeleteCalls (path : String) (recursive : Bool) : DeleteRequestTrace :=
  [deleteRequest path recursive]


/-! Concrete data used by the witnesses below. -/

/-- A notebook status at the root level. -/
def nbStatus1 : model.WorkspaceObjectStatus :=
  { path := "/w/a", objectType := "NOTEBOOK", language := "PYTHON" }

/-- A notebook status inside the directory `/w/d`. -/
def nbStatus2 : model.WorkspaceObjectStatus :=
  { path := "/w/d/b", objectType := "NOTEBOOK", language := "SCALA" }

/-- A directory status at the root level. -/
def dirStatus1 : model.WorkspaceObjectStatus :=
  { path := "/w/d", objectType := "DIRECTORY", language := "" }

/-- A second directory status at the root level. -/
def dirStatus2 : model.WorkspaceObjectStatus :=
  { path := "/w/e", objectType := "DIRECTORY", language := "" }

/-- A status of an object that is neither a notebook nor a directory. -/
def libStatus1 : model.WorkspaceObjectStatus :=
  { path := "/w/lib", objectType := "LIBRARY", language := "" }

/-- A response tree holding only notebooks besides directories: a notebook
and a directory at the root, one notebook inside the directory. -/
def treeOnlyNotebooks : RemoteDir String :=
  .ok (.cons nbStatus1 (.ok .nil)
    (.cons dirStatus1 (.ok (.cons nbStatus2 (.ok .nil) .nil)) .nil))

/-- A response tree whose first directory fails its list call, with a
notebook collected before the failure and a healthy directory after it. -/
def treeWithError : RemoteDir String :=
  .ok (.cons nbStatus1 (.ok .nil)
    (.cons dirStatus1 (.err "remote error")
      (.cons dirStatus2 (.ok .nil) .nil)))

/-- One level of entries of mixed object types, as a list response. -/
def entriesMixed : Entries String :=
  .cons dirStatus1 (.ok .nil)
    (.cons libStatus1 (.ok .nil)
      (.cons nbStatus1 (.ok .nil) .nil))

/-- An import-request oracle that always fails. -/
def failingImportQuery : model.NotebookImportRequest → Except String Unit :=
  fun _ => .error "HTTP 500"

/-- A path-request oracle that always fails. -/
def failingPathQuery : model.WorkspacePathRequest → Except String Unit :=
  fun _ => .error "HTTP 404"

/-- An export-request oracle that always fails. -/
def failingExportQuery : model.WorkspaceExportRequest → Except String Unit :=
  fun _ => .error "HTTP 404"

/-- A delete-request oracle that always fails. -/
def failingDeleteQuery : model.NotebookDeleteRequest → Except String Unit :=
  fun _ => .error "HTTP 429"

/-- A status decoder that always succeeds with `nbStatus1`. -/
def constStatusDecoder : Unit → model.WorkspaceObjectStatus × Option String :=
  fun _ => (nbStatus1, none)

/-- A content decoder that always fails. -/
def failingContentDecoder : Unit → model.NotebookContent × Option String :=
  fun _ => ({ content := "" }, some "invalid character")

/-- The directory tag differs from the notebook tag. -/
theorem directory_ne_notebook : model.Directory ≠ model.Notebook := by decide

/-- The notebook tag differs from the directory tag. -/
theorem notebook_ne_directory : model.Notebook ≠ model.Directory := by decide

mutual
/-- The result component of the traced walk agrees with
`recursiveAddPaths`. -/
theorem recursiveAddPathsT_snd {E : Type} :
    ∀ (p : String) (d : RemoteDir E) (acc : StatusList),
      (NotebooksAPI.recursiveAddPathsT p d acc).2 = NotebooksAPI.recursiveAddPaths d acc
  | _, .err _, _ => rfl
  | p, .ok es, acc => by
    have h := addEntriesT_snd es acc
    simp only [NotebooksAPI.recursiveAddPathsT, NotebooksAPI.recursiveAddPaths]
    cases hr : NotebooksAPI.addEntriesT es acc with
    | mk t r =>
      rw [hr] at h
      simpa using h
/-- The result component of the traced loop agrees with `addEntries`. -/
theorem addEntriesT_snd {E : Type} :
    ∀ (es : Entries E) (acc : StatusList),
      (NotebooksAPI.addEntriesT es acc).2 = NotebooksAPI.addEntries es acc
  | .nil, _ => rfl
  | .cons st c rest, acc => by
    by_cases h1 : st.objectType = model.Notebook
    · have h := addEntriesT_snd rest (acc ++ [st])
      simp [NotebooksAPI.addEntriesT, NotebooksAPI.addEntries, h1, h]
    · by_cases h2 : st.objectType = model.Directory
      · have hc := recursiveAddPathsT_snd st.path c acc
        simp only [NotebooksAPI.addEntriesT, NotebooksAPI.addEntries, h1, h2,
          directory_ne_notebook, if_true, if_false, ite_true, ite_false]
        cases hr : NotebooksAPI.recursiveAddPathsT st.path c acc with
        | mk t r =>
          rw [hr] at hc
          simp only at hc
          rw [← hc]
          cases r with
          | error e => rfl
          | ok acc2 => exact addEntriesT_snd rest acc2
      · have h := addEntriesT_snd rest acc
        simp [NotebooksAPI.addEntriesT, NotebooksAPI.addEntries, h1, h2, h]
end

mutual
/-- When no list call of the tree fails, the walk succeeds and appends the
depth-first notebooks to the accumulator. -/
theorem recursiveAddPaths_of_noError {E : Type} :
    ∀ (d : RemoteDir E) (acc : StatusList), firstListError d = none →
      NotebooksAPI.recursiveAddPaths d acc = .ok (acc ++ specNotebooks d)
  | .err e, acc => by intro h; simp [firstListError] at h
  | .ok es, acc => by
    intro h
    simp only [firstListError] at h
    simp only [NotebooksAPI.recursiveAddPaths, specNotebooks]
    exact addEntries_of_noError es acc h
/-- The loop form of `recursiveAddPaths_of_noError`. -/
theorem addEntries_of_noError {E : Type} :
    ∀ (es : Entries E) (acc : StatusList), firstListErrorE es = none →
      NotebooksAPI.addEntries es acc = .ok (acc ++ specNotebooksE es)
  | .nil, acc => by
    intro h
    simp [NotebooksAPI.addEntries, specNotebooksE]
  | .cons st c rest, acc => by
    intro h
    by_cases h1 : st.objectType = model.Notebook
    · have hrest : firstListErrorE rest = none := by
        simpa [firstListErrorE, h1, notebook_ne_directory] using h
      have ih := addEntries_of_noError rest (acc ++ [st]) hrest
      simp [NotebooksAPI.addEntries, specNotebooksE, h1, ih]
    · by_cases h2 : st.objectType = model.Directory
      · have hc : firstListError c = none := by
          simp only [firstListErrorE, h2, if_true] at h
          cases hfc : firstListError c with
          | none => rfl
          | some e => rw [hfc] at h; simp at h
        have hrest : firstListErrorE rest = none := by
          simp only [firstListErrorE, h2, if_true] at h
          rw [hc] at h
          simpa using h
        have ihc := recursiveAddPaths_of_noError c acc hc
        have ihr := addEntries_of_noError rest (acc ++ specNotebooks c) hrest
        simp [NotebooksAPI.addEntries, specNotebooksE, h1, h2,
          directory_ne_notebook, ihc, ihr]
      · have hrest : firstListErrorE rest = none := by
          simpa [firstListErrorE, h1, h2] using h
        have ih := addEntries_of_noError rest acc hrest
        simp [NotebooksAPI.addEntries, specNotebooksE, h1, h2, ih]
end

mutual
/-- The walk fails with `e` exactly when `e` is the first error a
depth-first descent of the tree meets. -/
theorem recursiveAddPaths_error_iff {E : Type} :
    ∀ (d : RemoteDir E) (acc : StatusList) (e : E),
      NotebooksAPI.recursiveAddPaths d acc = .error e ↔ firstListError d = some e
  | .err e2, acc, e => by
    simp [NotebooksAPI.recursiveAddPaths, firstListError]
  | .ok es, acc, e => by
    simp only [NotebooksAPI.recursiveAddPaths, firstListError]
    exact addEntries_error_iff es acc e
/-- The loop form of `recursiveAddPaths_error_iff`. -/
theorem addEntries_error_iff {E : Type} :
    ∀ (es : Entries E) (acc : StatusList) (e : E),
      NotebooksAPI.addEntries es acc = .error e ↔ firstListErrorE es = some e
  | .nil, acc, e => by simp [NotebooksAPI.addEntries, firstListErrorE]
  | .cons st c rest, acc, e => by
    by_cases h1 : st.objectType = model.Notebook
    · simpa [NotebooksAPI.addEntries, firstListErrorE, h1, notebook_ne_directory]
        using addEntries_error_iff rest (acc ++ [st]) e
    · by_cases h2 : st.objectType = model.Directory
      · simp only [NotebooksAPI.addEntries, firstListErrorE, h1, h2,
          directory_ne_notebook, if_true, if_false, ite_true, ite_false]
        cases hr : NotebooksAPI.recursiveAddPaths c acc with
        | error e2 =>
          have hfc : firstListError c = some e2 :=
            (recursiveAddPaths_error_iff c acc e2).mp hr
          simp [hfc]
        | ok acc2 =>
          have hfc : firstListError c = none := by
            cases hfc2 : firstListError c with
            | none => rfl
            | some e2 =>
              have hcontra := (recursiveAddPaths_error_iff c acc e2).mpr hfc2
              rw [hr] at hcontra
              exact absurd hcontra (by simp)
          simpa [hfc] using addEntries_error_iff rest acc2 e
      · simpa [NotebooksAPI.addEntries, firstListErrorE, h1, h2]
          using addEntries_error_iff rest acc e
end

/-- A successful walk means no list call of the tree failed. -/
theorem firstListError_none_of_ok {E : Type} (d : RemoteDir E) (acc acc2 : StatusList)
    (h : NotebooksAPI.recursiveAddPaths d acc = .ok acc2) : firstListError d = none := by
  cases hfc : firstListError d with
  | none => rfl
  | some e =>
    have hcontra := (recursiveAddPaths_error_iff d acc e).mpr hfc
    rw [h] at hcontra
    simp at hcontra

mutual
/-- Every status collected by the spec-side notebook enumeration is tagged
as a notebook. -/
theorem specNotebooks_types {E : Type} :
    ∀ (d : RemoteDir E) (st : model.WorkspaceObjectStatus), st ∈ specNotebooks d →
      st.objectType = model.Notebook
  | .err e, st => by simp [specNotebooks]
  | .ok es, st => by
    simp only [specNotebooks]
    exact specNotebooksE_types es st
/-- The loop form of `specNotebooks_types`. -/
theorem specNotebooksE_types {E : Type} :
    ∀ (es : Entries E) (st : model.WorkspaceObjectStatus), st ∈ specNotebooksE es →
      st.objectType = model.Notebook
  | .nil, st => by simp [specNotebooksE]
  | .cons st0 c rest, st => by
    intro hmem
    by_cases h1 : st0.objectType = model.Notebook
    · rw [specNotebooksE] at hmem
      rw [if_pos h1] at hmem
      rcases List.mem_cons.mp hmem with heq | hmem2
      · rw [heq]; exact h1
      · exact specNotebooksE_types rest st hmem2
    · by_cases h2 : st0.objectType = model.Directory
      · rw [specNotebooksE, if_neg h1, if_pos h2] at hmem
        rcases List.mem_append.mp hmem with hmemc | hmem2
        · exact specNotebooks_types c st hmemc
        · exact specNotebooksE_types rest st hmem2
      · rw [specNotebooksE, if_neg h1, if_neg h2] at hmem
        exact specNotebooksE_types rest st hmem
end

mutual
/-- A tree of only notebooks besides directories answers every list call. -/
theorem firstListError_of_onlyNotebooks {E : Type} :
    ∀ (d : RemoteDir E), onlyNotebooksDir d = true → firstListError d = none
  | .err e => by intro h; simp [onlyNotebooksDir] at h
  | .ok es => by
    intro h
    simp only [onlyNotebooksDir] at h
    simp only [firstListError]
    exact firstListErrorE_of_onlyNotebooks es h
/-- The loop form of `firstListError_of_onlyNotebooks`. -/
theorem firstListErrorE_of_onlyNotebooks {E : Type} :
    ∀ (es : Entries E), onlyNotebooksEntries es = true → firstListErrorE es = none
  | .nil => by intro h; simp [firstListErrorE]
  | .cons st c rest => by
    intro h
    rw [onlyNotebooksEntries, Bool.and_eq_true] at h
    obtain ⟨hor, hrest⟩ := h
    have ihrest := firstListErrorE_of_onlyNotebooks rest hrest
    by_cases h1 : st.objectType = model.Notebook
    · simp [firstListErrorE, h1, notebook_ne_directory, ihrest]
    · have hdir : st.objectType = model.Directory ∧ onlyNotebooksDir c = true := by
        rw [Bool.or_eq_true] at hor
        rcases hor with hnb | hd
        · exact absurd (by simpa using hnb) h1
        · rw [Bool.and_eq_true] at hd
          exact ⟨by simpa using hd.1, hd.2⟩
      have ihc := firstListError_of_onlyNotebooks c hdir.2
      simp [firstListErrorE, hdir.1, ihc, ihrest]
end

mutual
/-- The trace of the walk is exactly the spec-side call list (one call per
directory reached, cut off at the first error). -/
theorem recursiveAddPathsT_fst {E : Type} :
    ∀ (p : String) (d : RemoteDir E) (acc : StatusList),
      (NotebooksAPI.recursiveAddPathsT p d acc).1 = specCalls p d
  | _, .err _, _ => rfl
  | p, .ok es, acc => by
    have h := addEntriesT_fst es acc
    simp only [NotebooksAPI.recursiveAddPathsT, specCalls]
    cases hr : NotebooksAPI.addEntriesT es acc with
    | mk t r =>
      rw [hr] at h
      simpa using h
/-- The loop form of `recursiveAddPathsT_fst`. -/
theorem addEntriesT_fst {E : Type} :
    ∀ (es : Entries E) (acc : StatusList),
      (NotebooksAPI.addEntriesT es acc).1 = specCallsE es
  | .nil, _ => rfl
  | .cons st c rest, acc => by
    by_cases h1 : st.objectType = model.Notebook
    · have h := addEntriesT_fst rest (acc ++ [st])
      simp [NotebooksAPI.addEntriesT, specCallsE, h1, notebook_ne_directory, h]
    · by_cases h2 : st.objectType = model.Directory
      · simp only [NotebooksAPI.addEntriesT, specCallsE, h1, h2,
          directory_ne_notebook, if_true, if_false, ite_true, ite_false]
        cases hr : NotebooksAPI.recursiveAddPathsT st.path c acc with
        | mk t r =>
          have ht : t = specCalls st.path c := by
            have h := recursiveAddPathsT_fst st.path c acc
            rw [hr] at h
            simpa using h
          have hsnd : r = NotebooksAPI.recursiveAddPaths c acc := by
            have h := recursiveAddPathsT_snd st.path c acc
            rw [hr] at h
            simpa using h
          cases r with
          | error e =>
            have hfc : firstListError c = some e :=
              (recursiveAddPaths_error_iff c acc e).mp hsnd.symm
            simp [ht, hfc]
          | ok acc2 =>
            have hfc : firstListError c = none :=
              firstListError_none_of_ok c acc acc2 hsnd.symm
            have h := addEntriesT_fst rest acc2
            simp [ht, hfc, h]
      · have h := addEntriesT_fst rest acc
        simp [NotebooksAPI.addEntriesT, specCallsE, h1, h2, h]
end

mutual
/-- When no list call fails, the cut-off call list is the full one-call-
per-directory list. -/
theorem specCalls_eq_dirCalls {E : Type} :
    ∀ (p : String) (d : RemoteDir E), firstListError d = none →
      specCalls p d = specDirCalls p d
  | p, .err e => by intro h; simp [firstListError] at h
  | p, .ok es => by
    intro h
    simp only [firstListError] at h
    simp only [specCalls, specDirCalls]
    rw [specCallsE_eq_dirCallsE es h]
/-- The loop form of `specCalls_eq_dirCalls`. -/
theorem specCallsE_eq_dirCallsE {E : Type} :
    ∀ (es : Entries E), firstListErrorE es = none →
      specCallsE es = specDirCallsE es
  | .nil => by intro h; rfl
  | .cons st c rest => by
    intro h
    by_cases h2 : st.objectType = model.Directory
    · have hc : firstListError c = none := by
        simp only [firstListErrorE, h2, if_true] at h
        cases hfc : firstListError c with
        | none => rfl
        | some e => rw [hfc] at h; simp at h
      have hrest : firstListErrorE rest = none := by
        simp only [firstListErrorE, h2, if_true] at h
        rw [hc] at h
        simpa using h
      simp [specCallsE, specDirCallsE, h2, hc,
        specCalls_eq_dirCalls st.path c hc, specCallsE_eq_dirCallsE rest hrest]
    · have hrest : firstListErrorE rest = none := by
        simpa [firstListErrorE, h2] using h
      simp [specCallsE, specDirCallsE, h2, specCallsE_eq_dirCallsE rest hrest]
end

mutual
/-- The cut-off call list always forms an initial segment of the full
one-call-per-directory list: aborting skips calls, it never adds or
reorders any. -/
theorem specCalls_initial {E : Type} :
    ∀ (p : String) (d : RemoteDir E), ∃ t, specCalls p d ++ t = specDirCalls p d
  | p, .err e => ⟨[], rfl⟩
  | p, .ok es => by
    obtain ⟨t, ht⟩ := specCallsE_initial es
    exact ⟨t, by simp [specCalls, specDirCalls, ht]⟩
/-- The loop form of `specCalls_initial`. -/
theorem specCallsE_initial {E : Type} :
    ∀ (es : Entries E), ∃ t, specCallsE es ++ t = specDirCallsE es
  | .nil => ⟨[], rfl⟩
  | .cons st c rest => by
    by_cases h2 : st.objectType = model.Directory
    · cases hfc : firstListError c with
      | some e =>
        obtain ⟨t1, ht1⟩ := specCalls_initial st.path c
        refine ⟨t1 ++ specDirCallsE rest, ?_⟩
        simp [specCallsE, specDirCallsE, h2, hfc, ← ht1]
      | none =>
        obtain ⟨t2, ht2⟩ := specCallsE_initial rest
        refine ⟨t2, ?_⟩
        simp [specCallsE, specDirCallsE, h2, hfc,
          specCalls_eq_dirCalls st.path c hfc, ← ht2]
    · obtain ⟨t2, ht2⟩ := specCallsE_initial rest
      exact ⟨t2, by simp [specCallsE, specDirCallsE, h2, ht2]⟩
end

/-- C1: on a response tree containing only notebook objects besides
directories, recursive `List` returns exactly the notebook entries of the
tree (in depth-first order), with no error, and none of the returned
entries is a directory. -/
theorem list_recursive_only_notebooks {E : Type} (d : RemoteDir E)
    (h : onlyNotebooksDir d = true) :
    NotebooksAPI.List d true = (some (specNotebooks d), none) ∧
    ∀ st ∈ specNotebooks d,
      st.objectType = model.Notebook ∧ st.objectType ≠ model.Directory := by
  have hne := firstListError_of_onlyNotebooks d h
  have hok := recursiveAddPaths_of_noError d [] hne
  constructor
  · simp [NotebooksAPI.List, hok]
  · intro st hmem
    have ht := specNotebooks_types d st hmem
    refine ⟨ht, ?_⟩
    rw [ht]
    exact notebook_ne_directory

/-- Witness for C1 on a concrete two-level tree of notebooks. -/
theorem list_recursive_only_notebooks_witness :
    onlyNotebooksDir treeOnlyNotebooks = true ∧
    specNotebooks treeOnlyNotebooks = [nbStatus1, nbStatus2] ∧
    (NotebooksAPI.List treeOnlyNotebooks true =
        (some (specNotebooks treeOnlyNotebooks), none) ∧
      ∀ st ∈ specNotebooks treeOnlyNotebooks,
        st.objectType = model.Notebook ∧ st.objectType ≠ model.Directory) :=
  ⟨by decide, by decide, list_recursive_only_notebooks treeOnlyNotebooks (by decide)⟩

/-- C2: when every list call of the tree answers, the recursive `List`
walk issues exactly the depth-first call list: the root path, then one
call per directory entry, descending into every directory entry at each
level in the order the remote returned the entries. -/
theorem list_recursive_dfs_calls {E : Type} (p : String) (d : RemoteDir E)
    (h : firstListError d = none) :
    (NotebooksAPI.ListT p d true).1 = specDirCalls p d := by
  have hok := recursiveAddPaths_of_noError d [] h
  simp only [NotebooksAPI.ListT, ite_true]
  cases hr : NotebooksAPI.recursiveAddPathsT p d [] with
  | mk t r =>
    have hfst := recursiveAddPathsT_fst p d []
    have hsnd := recursiveAddPathsT_snd p d []
    rw [hr] at hfst hsnd
    simp only at hfst hsnd
    rw [hok] at hsnd
    subst hsnd
    subst hfst
    simpa using specCalls_eq_dirCalls p d h

/-- Witness for C2 on the concrete two-level tree: the walk lists the root
and then the one directory below it. -/
theorem list_recursive_dfs_calls_witness :
    firstListError treeOnlyNotebooks = (none : Option String) ∧
    (NotebooksAPI.ListT "/w" treeOnlyNotebooks true).1 =
      specDirCalls "/w" treeOnlyNotebooks ∧
    specDirCalls "/w" treeOnlyNotebooks = ["/w", "/w/d"] :=
  ⟨by decide, list_recursive_dfs_calls "/w" treeOnlyNotebooks (by decide), by decide⟩

/-- C3: when some list call of the tree fails, recursive `List` surfaces
exactly the first such error and returns no objects; its call trace is the
depth-first call list cut off at the failing call, an initial segment of
the full one-call-per-directory list, so no further call is issued for any
remaining entry at any level. -/
theorem list_recursive_error_aborts {E : Type} (p : String) (d : RemoteDir E) (e : E)
    (h : firstListError d = some e) :
    (NotebooksAPI.ListT p d true).2 = (none, some e) ∧
    (NotebooksAPI.ListT p d true).1 = specCalls p d ∧
    ∃ t, specCalls p d ++ t = specDirCalls p d := by
  have herr : NotebooksAPI.recursiveAddPaths d [] = .error e :=
    (recursiveAddPaths_error_iff d [] e).mpr h
  have hmain : NotebooksAPI.ListT p d true = (specCalls p d, (none, some e)) := by
    simp only [NotebooksAPI.ListT, ite_true]
    cases hr : NotebooksAPI.recursiveAddPathsT p d [] with
    | mk t r =>
      have hfst := recursiveAddPathsT_fst p d []
      have hsnd := recursiveAddPathsT_snd p d []
      rw [hr] at hfst hsnd
      simp only at hfst hsnd
      rw [herr] at hsnd
      subst hsnd
      subst hfst
      rfl
  exact ⟨by rw [hmain], by rw [hmain], specCalls_initial p d⟩

/-- Witness for C3 on the concrete erroring tree: the walk stops at the
failing directory and never lists the healthy directory after it. -/
theorem list_recursive_error_aborts_witness :
    firstListError treeWithError = some "remote error" ∧
    ((NotebooksAPI.ListT "/w" treeWithError true).2 = (none, some "remote error") ∧
      (NotebooksAPI.ListT "/w" treeWithError true).1 = specCalls "/w" treeWithError ∧
      ∃ t, specCalls "/w" treeWithError ++ t = specDirCalls "/w" treeWithError) ∧
    specCalls "/w" treeWithError = ["/w", "/w/d"] ∧
    specDirCalls "/w" treeWithError = ["/w", "/w/d", "/w/e"] :=
  ⟨by decide,
    list_recursive_error_aborts "/w" treeWithError "remote error" (by decide),
    by decide, by decide⟩

/-- C8: whenever recursive `List` returns an error, the objects component
of its result is `nil`; entries collected before the failure are
discarded. -/
theorem list_recursive_error_returns_nil {E : Type} (d : RemoteDir E) (e : E)
    (h : (NotebooksAPI.List d true).2 = some e) :
    (NotebooksAPI.List d true).1 = none := by
  simp only [NotebooksAPI.List, ite_true] at h ⊢
  cases hr : NotebooksAPI.recursiveAddPaths d [] with
  | error e2 => rfl
  | ok paths => rw [hr] at h; simp at h

/-- Witness for C8: the erroring tree has a notebook before the failing
directory, yet the result is `nil`. -/
theorem list_recursive_error_returns_nil_witness :
    (NotebooksAPI.List treeWithError true).2 = some "remote error" ∧
    (NotebooksAPI.List treeWithError true).1 = none :=
  ⟨by decide, list_recursive_error_returns_nil treeWithError "remote error" (by decide)⟩

/-- C9: non-recursive `List` returns every object of the one list response
in order, with no error and no filtering by object type. -/
theorem list_nonrecursive_unfiltered {E : Type} (es : Entries E) :
    NotebooksAPI.List (.ok es) false = (some (Entries.statuses es), none) := rfl

/-- Witness for C9 on one level holding a directory, a library and a
notebook: all three come back unchanged. -/
theorem list_nonrecursive_unfiltered_witness :
    NotebooksAPI.List (.ok entriesMixed) false =
      (some [dirStatus1, libStatus1, nbStatus1], none) := by
  have h := list_nonrecursive_unfiltered entriesMixed
  rw [h]
  decide

/-- C10: an entry whose object type is neither notebook nor directory is
skipped by the recursive walk: the walk behaves as if the entry were not
there — nothing is appended, nothing is recursed into, no list call is
issued for it and no error arises from it. -/
theorem other_object_types_skipped {E : Type} (st : model.WorkspaceObjectStatus)
    (c : RemoteDir E) (rest : Entries E) (acc : StatusList)
    (h1 : st.objectType ≠ model.Notebook) (h2 : st.objectType ≠ model.Directory) :
    NotebooksAPI.addEntries (.cons st c rest) acc = NotebooksAPI.addEntries rest acc ∧
    NotebooksAPI.addEntriesT (.cons st c rest) acc = NotebooksAPI.addEntriesT rest acc := by
  constructor
  · simp [NotebooksAPI.addEntries, h1, h2]
  · simp [NotebooksAPI.addEntriesT, h1, h2]

/-- Witness for C10 with a concrete library entry. -/
theorem other_object_types_skipped_witness :
    libStatus1.objectType ≠ model.Notebook ∧
    libStatus1.objectType ≠ model.Directory ∧
    (NotebooksAPI.addEntries (.cons libStatus1 (.ok .nil) .nil) ([] : StatusList) =
        NotebooksAPI.addEntries (E := String) .nil [] ∧
      NotebooksAPI.addEntriesT (.cons libStatus1 (.ok .nil) .nil) ([] : StatusList) =
        NotebooksAPI.addEntriesT (E := String) .nil []) :=
  ⟨by decide, by decide,
    other_object_types_skipped libStatus1 (.ok .nil) .nil [] (by decide) (by decide)⟩

/-- C5: each operation returns exactly the error of its underlying HTTP
call or of the JSON decoding of the response, unmodified — Create, Mkdirs
and Delete the error of their single call; Read and Export the error of
their call or, when the call succeeds, of the decoding; List the error of
the failing list call (in recursive mode, the first one the walk meets).
No other error value can be produced, and no wrapping, classification,
retry or recovery occurs. -/
theorem errors_propagate_unchanged {E B : Type} :
    (∀ (pq : model.NotebookImportRequest → Except E B) (p c : String)
        (l : model.Language) (f : model.ExportFormat) (o : Bool) (e : E),
      NotebooksAPI.Create pq p c l f o = some e ↔
        pq (NotebooksAPI.createRequest p c l f o) = .error e) ∧
    (∀ (pq : model.WorkspacePathRequest → Except E B)
        (um : B → model.WorkspaceObjectStatus × Option E) (p : String) (e : E),
      (NotebooksAPI.Read pq um p).2 = some e ↔
        (pq { path := p } = .error e ∨
          ∃ b, pq { path := p } = .ok b ∧ (um b).2 = some e)) ∧
    (∀ (pq : model.WorkspaceExportRequest → Except E B)
        (um : B → model.NotebookContent × Option E) (p : String)
        (f : model.ExportFormat) (e : E),
      (NotebooksAPI.Export pq um p f).2 = some e ↔
        (pq { path := p, format := f } = .error e ∨
          ∃ b, pq { path := p, format := f } = .ok b ∧ (um b).2 = some e)) ∧
    (∀ (pq : model.WorkspacePathRequest → Except E B) (p : String) (e : E),
      NotebooksAPI.Mkdirs pq p = some e ↔ pq { path := p } = .error e) ∧
    (∀ (d : RemoteDir E) (e : E),
      ((NotebooksAPI.List d true).2 = some e ↔ firstListError d = some e) ∧
      ((NotebooksAPI.List d false).2 = some e ↔ d = .err e)) ∧
    (∀ (pq : model.NotebookDeleteRequest → Except E B) (p : String) (r : Bool) (e : E),
      NotebooksAPI.Delete pq p r = some e ↔
        pq (NotebooksAPI.deleteRequest p r) = .error e) := by
  refine ⟨?_, ?_, ?_, ?_, ?_, ?_⟩
  · intro pq p c l f o e
    unfold NotebooksAPI.Create
    cases hq : pq (NotebooksAPI.createRequest p c l f o) <;> simp [hq]
  · intro pq um p e
    unfold NotebooksAPI.Read
    cases hq : pq { path := p } <;> simp [hq]
  · intro pq um p f e
    unfold NotebooksAPI.Export
    cases hq : pq { path := p, format := f } <;> simp [hq]
  · intro pq p e
    unfold NotebooksAPI.Mkdirs
    cases hq : pq { path := p } <;> simp [hq]
  · intro d e
    constructor
    · have hstep : (NotebooksAPI.List d true).2 = some e ↔
          NotebooksAPI.recursiveAddPaths d [] = .error e := by
        simp only [NotebooksAPI.List, ite_true]
        cases hr : NotebooksAPI.recursiveAddPaths d [] <;> simp
      exact hstep.trans (recursiveAddPaths_error_iff d [] e)
    · cases d <;> simp [NotebooksAPI.List, NotebooksAPI.listOne]
  · intro pq p r e
    unfold NotebooksAPI.Delete
    cases hq : pq (NotebooksAPI.deleteRequest p r) <;> simp [hq]

/-- Witness for C5: a failing import call surfaces its own error string. -/
theorem errors_propagate_unchanged_witness :
    NotebooksAPI.Create failingImportQuery "/w/a" "cHJpbnQoMSk=" "PYTHON" "SOURCE" true =
      some "HTTP 500" :=
  (errors_propagate_unchanged.1 failingImportQuery "/w/a" "cHJpbnQoMSk=" "PYTHON"
    "SOURCE" true "HTTP 500").mpr rfl

/-- C6: Create submits exactly one import request, carrying precisely the
given content, language, path, format and overwrite flag; it fails exactly
with the error of that remote call (non-success status or malformed body)
and returns no error exactly when the call succeeds. -/
theorem create_submits_one_exact_request {E B : Type} :
    (∀ (p c : String) (l : model.Language) (f : model.ExportFormat) (o : Bool),
      NotebooksAPI.createRequest p c l f o =
        { content := c, language := l, path := p, format := f, overwrite := o } ∧
      NotebooksAPI.CreateCalls p c l f o = [NotebooksAPI.createRequest p c l f o]) ∧
    (∀ (pq : model.NotebookImportRequest → Except E B) (p c : String)
        (l : model.Language) (f : model.ExportFormat) (o : Bool) (e : E),
      NotebooksAPI.Create pq p c l f o = some e ↔
        pq (NotebooksAPI.createRequest p c l f o) = .error e) ∧
    (∀ (pq : model.NotebookImportRequest → Except E B) (p c : String)
        (l : model.Language) (f : model.ExportFormat) (o : Bool),
      NotebooksAPI.Create pq p c l f o = none ↔
        ∃ b, pq (NotebooksAPI.createRequest p c l f o) = .ok b) := by
  refine ⟨fun p c l f o => ⟨rfl, rfl⟩, ?_, ?_⟩
  · intro pq p c l f o e
    unfold NotebooksAPI.Create
    cases hq : pq (NotebooksAPI.createRequest p c l f o) <;> simp [hq]
  · intro pq p c l f o
    unfold NotebooksAPI.Create
    cases hq : pq (NotebooksAPI.createRequest p c l f o) <;> simp [hq]

/-- Witness for C6: the one submitted request carries the five fields
verbatim, and a failing call fails Create with the same error. -/
theorem create_submits_one_exact_request_witness :
    NotebooksAPI.CreateCalls "/w/a" "cHJpbnQoMSk=" "PYTHON" "SOURCE" true =
      [{ content := "cHJpbnQoMSk=", language := "PYTHON", path := "/w/a",
          format := "SOURCE", overwrite := true }] ∧
    NotebooksAPI.Create failingImportQuery "/w/a" "cHJpbnQoMSk=" "PYTHON" "SOURCE" true =
      some "HTTP 500" := by
  refine ⟨?_, ?_⟩
  · have h := (create_submits_one_exact_request (E := String) (B := Unit)).1
      "/w/a" "cHJpbnQoMSk=" "PYTHON" "SOURCE" true
    rw [h.2, h.1]
  · exact (create_submits_one_exact_request.2.1 failingImportQuery
      "/w/a" "cHJpbnQoMSk=" "PYTHON" "SOURCE" true "HTTP 500").mpr rfl

/-- C7: Delete submits exactly one delete request, carrying the path and
the recursive flag verbatim, and returns exactly the error (or success) of
that single call. -/
theorem delete_submits_one_exact_request {E B : Type} :
    (∀ (p : String) (r : Bool),
      NotebooksAPI.deleteRequest p r = { path := p, recursive := r } ∧
      NotebooksAPI.DeleteCalls p r = [NotebooksAPI.deleteRequest p r]) ∧
    (∀ (pq : model.NotebookDeleteRequest → Except E B) (p : String) (r : Bool) (e : E),
      NotebooksAPI.Delete pq p r = some e ↔
        pq (NotebooksAPI.deleteRequest p r) = .error e) ∧
    (∀ (pq : model.NotebookDeleteRequest → Except E B) (p : String) (r : Bool),
      NotebooksAPI.Delete pq p r = none ↔
        ∃ b, pq (NotebooksAPI.deleteRequest p r) = .ok b) := by
  refine ⟨fun p r => ⟨rfl, rfl⟩, ?_, ?_⟩
  · intro pq p r e
    unfold NotebooksAPI.Delete
    cases hq : pq (NotebooksAPI.deleteRequest p r) <;> simp [hq]
  · intro pq p r
    unfold NotebooksAPI.Delete
    cases hq : pq (NotebooksAPI.deleteRequest p r) <;> simp [hq]

/-- Witness for C7: the one submitted request carries path and flag
verbatim, and a failing call fails Delete with the same error. -/
theorem delete_submits_one_exact_request_witness :
    NotebooksAPI.DeleteCalls "/w/d" true = [{ path := "/w/d", recursive := true }] ∧
    NotebooksAPI.Delete failingDeleteQuery "/w/d" true = some "HTTP 429" := by
  refine ⟨?_, ?_⟩
  · have h := (delete_submits_one_exact_request (E := String) (B := Unit)).1 "/w/d" true
    rw [h.2, h.1]
  · exact (delete_submits_one_exact_request.2.1 failingDeleteQuery "/w/d" true
      "HTTP 429").mpr rfl
